import Mathlib

/-!
Shallow embedding of `internal/azure/azure.go` from basvdlei/gazcli.

Go pointers become `Option`; `time.Duration` (an int64 nanosecond count)
becomes `Int`; Go maps keyed by strings become association lists with
first-match lookup (Go map insertion/lookup is deterministic; only the
iteration order is not, and no claim depends on it).  The remote provider
is modelled by an `Env` record carrying the page sequences each paged
listing yields, the wall clock, the UUID generator result, and the result
of the create call.  SDK client construction (`New...Client`) is modelled
as succeeding; its failure branch returns before any API call and no claim
concerns it.  Each operation additionally returns the list of API calls it
issued, so statements about calls never being made are expressible.
-/

namespace Gazcli

/-- An `armsubscription.Subscription` entry as used by `Subscriptions()`:
only the three dereferenced fields are modelled, each a Go pointer. -/
structure Subscription where
  displayName : Option String
  subscriptionID : Option String
  state : Option String
  deriving DecidableEq, Repr

/-- The SDK constant `armsubscription.SubscriptionStateEnabled`. -/
def subscriptionStateEnabled : String := "Enabled"

/-- The part of `armauthorization.RoleDefinition` reached by the code. -/
structure RoleDefinition where
  displayName : Option String
  deriving DecidableEq, Repr

/-- The part of `armauthorization.ExpandedProperties` reached by the code. -/
structure ExpandedProperties where
  roleDefinition : Option RoleDefinition
  deriving DecidableEq, Repr

/-- The fields of `armauthorization.RoleEligibilityScheduleProperties`
dereferenced by the code. -/
structure RoleEligibilityScheduleProperties where
  expandedProperties : Option ExpandedProperties
  roleDefinitionID : Option String
  deriving DecidableEq, Repr

/-- An `armauthorization.RoleEligibilitySchedule` record. -/
structure RoleEligibilitySchedule where
  id : Option String
  properties : Option RoleEligibilityScheduleProperties
  deriving DecidableEq, Repr

/-- The SDK constant `armauthorization.RequestTypeSelfActivate`. -/
def requestTypeSelfActivate : String := "SelfActivate"

/-- The SDK constant `armauthorization.TypeAfterDuration`. -/
def typeAfterDuration : String := "AfterDuration"

/-- `armauthorization.RoleAssignmentScheduleRequestPropertiesScheduleInfoExpiration`. -/
structure ScheduleInfoExpiration where
  type : Option String
  duration : Option String
  deriving DecidableEq, Repr

/-- `armauthorization.RoleAssignmentScheduleRequestPropertiesScheduleInfo`.
`startDateTime` is an opaque timestamp, modelled as `Int`. -/
structure ScheduleInfo where
  startDateTime : Option Int
  expiration : Option ScheduleInfoExpiration
  deriving DecidableEq, Repr

/-- `armauthorization.RoleAssignmentScheduleRequestProperties`, field order
as in the literal in `ActiveRoleAssignment`. -/
structure RoleAssignmentScheduleRequestProperties where
  principalID : Option String
  requestType : Option String
  roleDefinitionID : Option String
  justification : Option String
  scheduleInfo : Option ScheduleInfo
  linkedRoleEligibilityScheduleID : Option String
  deriving DecidableEq, Repr

/-- `armauthorization.RoleAssignmentScheduleRequest`. -/
structure RoleAssignmentScheduleRequest where
  properties : Option RoleAssignmentScheduleRequestProperties
  deriving DecidableEq, Repr

/-- The distinct error values produced in `azure.go`: page-fetch errors from
`pager.NextPage`, the `"unexptected nil value returned"` integrity error,
`"subscription not found"`, `"Role Eligibility Schedule not found"`, the
`uuid.NewUUID` error and the error of the create call. -/
inductive AzError where
  | pageError (msg : String)
  | dataIntegrity
  | subscriptionNotFound
  | roleNotFound
  | uuidError (msg : String)
  | createError (msg : String)
  deriving DecidableEq, Repr

/-- One API call issued against the provider. -/
inductive ApiCall where
  | listSubscriptions
  | listSchedules (scope : String)
  | create (scope : String) (correlationID : String)
      (req : RoleAssignmentScheduleRequest)
  deriving DecidableEq, Repr

/-- One page produced by a pager: either the fetch fails (`pager.NextPage`
returns an error) or it yields a list of possibly-nil entries. -/
abbrev PageResult (α : Type) := Except String (List (Option α))

/-- The external world a `Session`'s operations interact with. -/
structure Env where
  subscriptionPages : List (PageResult Subscription)
  schedulePages : String → List (PageResult RoleEligibilitySchedule)
  now : Int
  newUUID : Except String String
  createResult : String → String → RoleAssignmentScheduleRequest → Except String Unit

/-- The `Session` fields the pure logic reads. -/
structure Session where
  principalID : String
  deriving DecidableEq, Repr

/-- First-match lookup in an association list, i.e. Go map lookup. -/
def lookupKey (k : String) : List (String × β) → Option β
  | [] => none
  | (k2, v) :: rest => if k = k2 then some v else lookupKey k rest

/-- What the per-entry body of a paged-listing loop does with one entry:
fail the listing (a nil check fired), skip it, or keep it under a key. -/
inductive EntryAction (β : Type) where
  | bad
  | skip
  | keep (key : String) (val : β)
  deriving DecidableEq, Repr

/-- The per-entry body of the loop in `Subscriptions()`: error on any nil
among entry, display name, subscription id and state; skip entries whose
state is not `Enabled`; otherwise keep (display name, subscription id). -/
def subEntryAction (v : Option Subscription) : EntryAction String :=
  match v with
  | none => .bad
  | some s =>
    match s.displayName, s.subscriptionID, s.state with
    | some dn, some sid, some st =>
      if st ≠ subscriptionStateEnabled then .skip else .keep dn sid
    | none, _, _ => .bad
    | _, none, _ => .bad
    | _, _, none => .bad

/-- The per-entry body of the loop in `roleEligibilitySchedules`: error on
any nil along entry → properties → expandedProperties → roleDefinition →
displayName, otherwise keep the whole record under the role display name. -/
def schedEntryAction (v : Option RoleEligibilitySchedule) :
    EntryAction RoleEligibilitySchedule :=
  match v with
  | none => .bad
  | some re =>
    match re.properties with
    | none => .bad
    | some p =>
      match p.expandedProperties with
      | none => .bad
      | some ep =>
        match ep.roleDefinition with
        | none => .bad
        | some rd =>
          match rd.displayName with
          | none => .bad
          | some dn => .keep dn re

/-- The inner `for _, v := range nextResult.Value` loop shared verbatim by
both listings: on `.bad` return the partial map with the integrity error; on
a key already present keep the first binding (the duplicate is dropped with
a logged warning, not modelled); otherwise append the new binding. -/
def drainEntries (act : α → EntryAction β) :
    List (String × β) → List α → List (String × β) × Option AzError
  | m, [] => (m, none)
  | m, v :: rest =>
    match act v with
    | .bad => (m, some .dataIntegrity)
    | .skip => drainEntries act m rest
    | .keep k val =>
      match lookupKey k m with
      | some _ => drainEntries act m rest
      | none => drainEntries act (m ++ [(k, val)]) rest

/-- The outer `for pager.More()` loop shared by both listings: a failing
`NextPage` returns the partial map with that error; otherwise the page's
entries are drained and any entry error also stops with the partial map. -/
def drainPages (act : Option α → EntryAction β) :
    List (String × β) → List (PageResult α) →
    List (String × β) × Option AzError
  | m, [] => (m, none)
  | m, .error e :: _ => (m, some (.pageError e))
  | m, .ok entries :: rest =>
    match drainEntries act m entries with
    | (m2, none) => drainPages act m2 rest
    | (m2, some err) => (m2, some err)

/-- `Session.Subscriptions`: drain the subscription pager into a display
name → subscription id map, returning the partial map alongside any error. -/
def Subscriptions (env : Env) : List (String × String) × Option AzError :=
  drainPages subEntryAction [] env.subscriptionPages

/-- `Session.roleEligibilitySchedules`: drain the schedules pager for the
given scope into a role display name → schedule record map. -/
def roleEligibilitySchedules (env : Env) (scope : String) :
    List (String × RoleEligibilitySchedule) × Option AzError :=
  drainPages schedEntryAction [] (env.schedulePages scope)

/-- `Session.RolesForSubscription`: resolve the subscription display name
via `Subscriptions`, then list the role names of the eligibility schedules
at scope `"/subscriptions/" ++ id`.  On any failure the roles slice is
empty.  The second component is the trace of API calls issued. -/
def RolesForSubscription (env : Env) (subscriptionName : String) :
    (List String × Option AzError) × List ApiCall :=
  match Subscriptions env with
  | (_, some e) => (([], some e), [.listSubscriptions])
  | (subs, none) =>
    match lookupKey subscriptionName subs with
    | none => (([], some .subscriptionNotFound), [.listSubscriptions])
    | some sub =>
      match roleEligibilitySchedules env ("/subscriptions/" ++ sub) with
      | (_, some e) =>
        (([], some e), [.listSubscriptions, .listSchedules ("/subscriptions/" ++ sub)])
      | (res, none) =>
        ((res.map Prod.fst, none),
          [.listSubscriptions, .listSchedules ("/subscriptions/" ++ sub)])

/-- Fuel-based base-two logarithm on naturals (`⌊log2 n⌋` for `n ≥ 1`),
written with structural recursion so the kernel can evaluate it. -/
def natLog2Aux : Nat → Nat → Nat
  | 0, _ => 0
  | fuel + 1, n => if 2 ≤ n then natLog2Aux fuel (n / 2) + 1 else 0

/-- Base-two logarithm, `⌊log2 n⌋` for `n ≥ 1` and `0` at `0`. -/
def natLog2 (n : Nat) : Nat := natLog2Aux n n

/-- Floor of the base-two logarithm of the positive rational `n / d`
(`n, d ≥ 1`), computed with integer arithmetic only. -/
def ratLog2Floor (n d : Nat) : Int :=
  let c : Int := (natLog2 n : Int) - (natLog2 d : Int)
  if 0 ≤ c then if d * 2 ^ c.toNat ≤ n then c else c - 1
  else if d ≤ n * 2 ^ (-c).toNat then c else c - 1

/-- An exact binary-scaled value `m * 2 ^ e`.  A binary64 value is such a
number with `|m| ≤ 2 ^ 53`; the exponent is left unbounded, which agrees
with IEEE 754 binary64 on the normal, non-overflowing range, and every
value arising from an int64 nanosecond duration stays far inside that
range. -/
structure Dyadic where
  m : Int
  e : Int
  deriving DecidableEq, Repr

/-- Rounds the positive rational `n / d` (`n ≥ 1`) to the nearest binary64
value: scale into `[2 ^ 52, 2 ^ 53)`, then round to an integer significand
to nearest, ties to even. -/
def roundPosRat (n d : Nat) : Dyadic :=
  let e : Int := ratLog2Floor n d - 52
  let scaledNum := if e ≤ 0 then n * 2 ^ (-e).toNat else n
  let scaledDen := if e ≤ 0 then d else d * 2 ^ e.toNat
  let q := scaledNum / scaledDen
  let r := scaledNum % scaledDen
  let rounded : Nat :=
    if 2 * r < scaledDen then q
    else if scaledDen < 2 * r then q + 1
    else if q % 2 = 0 then q else q + 1
  ⟨(rounded : Int), e⟩

/-- Rounds the rational `num / den` (`den ≥ 1`) to the nearest binary64
value; rounding is symmetric in the sign. -/
def roundRat (num : Int) (den : Nat) : Dyadic :=
  if num = 0 then ⟨0, 0⟩
  else if num < 0 then
    let x := roundPosRat num.natAbs den
    ⟨-x.m, x.e⟩
  else roundPosRat num.natAbs den

/-- Exact sum of two binary-scaled values, at the smaller exponent. -/
def dyadicAdd (x y : Dyadic) : Dyadic :=
  if x.e ≤ y.e then ⟨x.m + y.m * 2 ^ (y.e - x.e).toNat, x.e⟩
  else ⟨x.m * 2 ^ (x.e - y.e).toNat + y.m, y.e⟩

/-- Rounds an exact binary-scaled value to the nearest binary64 value. -/
def roundDyadic (x : Dyadic) : Dyadic :=
  if 0 ≤ x.e then roundRat (x.m * 2 ^ x.e.toNat) 1
  else roundRat x.m (2 ^ (-x.e).toNat)

/-- Truncation of a binary-scaled value toward zero, i.e. Go's `int(x)`
conversion of an in-range `float64`. -/
def dyadicTrunc (x : Dyadic) : Int :=
  if 0 ≤ x.e then x.m * 2 ^ x.e.toNat
  else Int.tdiv x.m (2 ^ (-x.e).toNat : Nat)

/-- Go `int(duration.Minutes())` for a `time.Duration` of `d` nanoseconds.
`Duration.Minutes` computes `float64(d / Minute) + float64(d % Minute) /
(60 * 1e9)` with per-operation binary64 round-to-nearest-even, and the
`int` conversion truncates toward zero; each step is modelled exactly
(`/` and `%` on Go int64 truncate toward zero, hence `Int.tdiv` and
`Int.tmod`; `float64(min)`, `float64(nsec)` and the constant `60 * 1e9`
are exact, so the division rounds the exact ratio once and the addition
rounds the exact sum once).  For minute counts below `2 ^ 18` the result
is the exact truncation toward zero of the minute count, but for larger
minute counts the final addition can round up to the next whole minute. -/
def goDurationMinutes (d : Int) : Int :=
  let minCount := Int.tdiv d 60000000000
  let nsec := Int.tmod d 60000000000
  let x1 := roundRat minCount 1
  let x2 := roundRat nsec 60000000000
  dyadicTrunc (roundDyadic (dyadicAdd x1 x2))

/-- The `fmt.Sprintf("PT%dM", int(duration.Minutes()))` serialization in
`ActiveRoleAssignment`. -/
def expirationDurationString (d : Int) : String :=
  "PT" ++ toString (goDurationMinutes d) ++ "M"

/-- The nil-field guard in `ActiveRoleAssignment` over the resolved schedule
record (`re == nil` cannot fire: map values were inserted non-nil), in the
source's short-circuit order: ID, Properties, ExpandedProperties,
RoleDefinition, RoleDefinitionID. -/
def scheduleFieldsMissing (re : RoleEligibilitySchedule) : Bool :=
  match re.id with
  | none => true
  | some _ =>
    match re.properties with
    | none => true
    | some p =>
      match p.expandedProperties with
      | none => true
      | some ep =>
        match ep.roleDefinition with
        | none => true
        | some _ => p.roleDefinitionID.isNone

/-- The `RoleAssignmentScheduleRequest` literal built in
`ActiveRoleAssignment`. -/
def buildActivationRequest (principalID justifiction : String) (now : Int)
    (duration : Int) (re : RoleEligibilitySchedule) :
    RoleAssignmentScheduleRequest :=
  { properties := some
      { principalID := some principalID
        requestType := some requestTypeSelfActivate
        roleDefinitionID := re.properties.bind fun p => p.roleDefinitionID
        justification := some justifiction
        scheduleInfo := some
          { startDateTime := some now
            expiration := some
              { type := some typeAfterDuration
                duration := some (expirationDurationString duration) } }
        linkedRoleEligibilityScheduleID := re.id } }

/-- `Session.ActiveRoleAssignment`: resolve the subscription, fetch the
schedules at scope `"subscriptions/" ++ id` (no leading slash), resolve the
role, guard the needed fields, build the request, generate the correlation
UUID and issue the create call at scope `"/subscriptions/" ++ id`.  Returns
the error (if any) and the trace of API calls issued. -/
def ActiveRoleAssignment (s : Session) (env : Env)
    (subscriptionName roleDisplayName justifiction : String)
    (duration : Int) : Option AzError × List ApiCall :=
  match Subscriptions env with
  | (_, some e) => (some e, [.listSubscriptions])
  | (subs, none) =>
    match lookupKey subscriptionName subs with
    | none => (some .subscriptionNotFound, [.listSubscriptions])
    | some subscriptionID =>
      match roleEligibilitySchedules env ("subscriptions/" ++ subscriptionID) with
      | (_, some e) =>
        (some e, [.listSubscriptions, .listSchedules ("subscriptions/" ++ subscriptionID)])
      | (res, none) =>
        match lookupKey roleDisplayName res with
        | none =>
          (some .roleNotFound,
            [.listSubscriptions, .listSchedules ("subscriptions/" ++ subscriptionID)])
        | some re =>
          if scheduleFieldsMissing re then
            (some .dataIntegrity,
              [.listSubscriptions, .listSchedules ("subscriptions/" ++ subscriptionID)])
          else
            let req := buildActivationRequest s.principalID justifiction env.now duration re
            match env.newUUID with
            | .error e =>
              (some (.uuidError e),
                [.listSubscriptions, .listSchedules ("subscriptions/" ++ subscriptionID)])
            | .ok guid =>
              match env.createResult ("/subscriptions/" ++ subscriptionID) guid req with
              | .error e =>
                (some (.createError e),
                  [.listSubscriptions,
                    .listSchedules ("subscriptions/" ++ subscriptionID),
                    .create ("/subscriptions/" ++ subscriptionID) guid req])
              | .ok _ =>
                (none,
                  [.listSubscriptions,
                    .listSchedules ("subscriptions/" ++ subscriptionID),
                    .create ("/subscriptions/" ++ subscriptionID) guid req])

/-- The pair an entry contributes to a listing, when it is kept. -/
def keptOf (act : α → EntryAction β) (a : α) : Option (String × β) :=
  match act a with
  | .keep k v => some (k, v)
  | _ => none

/-- Specification-side view of a paged listing: the flat sequence of all
kept (key, value) pairs in page order, ignoring failures.  First-match
lookup in this sequence is the "first occurrence across pages wins" map the
spec describes. -/
def keptPairs (act : Option α → EntryAction β) :
    List (PageResult α) → List (String × β)
  | [] => []
  | .error _ :: rest => keptPairs act rest
  | .ok es :: rest => es.filterMap (keptOf act) ++ keptPairs act rest

theorem lookupKey_append_of_some {l1 l2 : List (String × β)} {k : String}
    {v : β} (h : lookupKey k l1 = some v) :
    lookupKey k (l1 ++ l2) = some v := by
  induction l1 with
  | nil => simp [lookupKey] at h
  | cons p rest ih =>
    obtain ⟨k2, w⟩ := p
    by_cases hk : k = k2 <;> simp_all [lookupKey]

theorem lookupKey_append_of_none {l1 : List (String × β)} {k : String}
    (h : lookupKey k l1 = none) (l2 : List (String × β)) :
    lookupKey k (l1 ++ l2) = lookupKey k l2 := by
  induction l1 with
  | nil => simp
  | cons p rest ih =>
    obtain ⟨k2, w⟩ := p
    by_cases hk : k = k2 <;> simp_all [lookupKey]

theorem lookupKey_eq_none {k : String} {m : List (String × β)} :
    lookupKey k m = none ↔ k ∉ m.map Prod.fst := by
  induction m with
  | nil => simp [lookupKey]
  | cons p rest ih =>
    obtain ⟨k2, w⟩ := p
    by_cases hk : k = k2 <;> simp_all [lookupKey]

theorem lookupKey_isSome_of_mem {k : String} {v : β} {m : List (String × β)}
    (h : (k, v) ∈ m) : lookupKey k m ≠ none := by
  rw [Ne, lookupKey_eq_none]
  intro hmem
  exact hmem (List.mem_map.mpr ⟨(k, v), h, rfl⟩)

theorem drainEntries_lookup_mono (act : α → EntryAction β) {k : String}
    {v : β} :
    ∀ (es : List α) (m : List (String × β)), lookupKey k m = some v →
      lookupKey k (drainEntries act m es).1 = some v := by
  intro es
  induction es with
  | nil => intro m h; simpa [drainEntries] using h
  | cons a rest ih =>
    intro m h
    cases hact : act a with
    | bad => simpa [drainEntries, hact] using h
    | skip => simpa [drainEntries, hact] using ih m h
    | keep k2 val =>
      cases hl : lookupKey k2 m with
      | some w => simpa [drainEntries, hact, hl] using ih m h
      | none =>
        simpa [drainEntries, hact, hl] using
          ih (m ++ [(k2, val)]) (lookupKey_append_of_some h)

theorem drainEntries_lookup_of_none (act : α → EntryAction β) {k : String} :
    ∀ (es : List α) (m : List (String × β)),
      lookupKey k m = none → (drainEntries act m es).2 = none →
      lookupKey k (drainEntries act m es).1 =
        lookupKey k (es.filterMap (keptOf act)) := by
  intro es
  induction es with
  | nil => intro m h _; simpa [drainEntries] using h
  | cons a rest ih =>
    intro m h herr
    cases hact : act a with
    | bad => simp [drainEntries, hact] at herr
    | skip =>
      rw [show (drainEntries act m (a :: rest)) = drainEntries act m rest by
            simp [drainEntries, hact]] at herr ⊢
      simpa [keptOf, hact] using ih m h herr
    | keep k2 val =>
      cases hl : lookupKey k2 m with
      | some w =>
        rw [show (drainEntries act m (a :: rest)) = drainEntries act m rest by
              simp [drainEntries, hact, hl]] at herr ⊢
        have hk : k ≠ k2 := by
          intro hkk; rw [hkk, hl] at h; exact Option.noConfusion h
        simpa [keptOf, hact, lookupKey, hk] using ih m h herr
      | none =>
        rw [show (drainEntries act m (a :: rest)) =
              drainEntries act (m ++ [(k2, val)]) rest by
            simp [drainEntries, hact, hl]] at herr ⊢
        by_cases hk : k = k2
        · subst hk
          have : lookupKey k (m ++ [(k, val)]) = some val := by
            rw [lookupKey_append_of_none h]; simp [lookupKey]
          simpa [keptOf, hact, lookupKey] using
            drainEntries_lookup_mono act rest (m ++ [(k, val)]) this
        · have : lookupKey k (m ++ [(k2, val)]) = none := by
            rw [lookupKey_append_of_none h]; simp [lookupKey, hk]
          simpa [keptOf, hact, lookupKey, hk] using
            ih (m ++ [(k2, val)]) this herr

theorem drainEntries_nodupKeys (act : α → EntryAction β) :
    ∀ (es : List α) (m : List (String × β)), (m.map Prod.fst).Nodup →
      (((drainEntries act m es).1).map Prod.fst).Nodup := by
  intro es
  induction es with
  | nil => intro m h; simpa [drainEntries] using h
  | cons a rest ih =>
    intro m h
    cases hact : act a with
    | bad => simpa [drainEntries, hact] using h
    | skip => simpa [drainEntries, hact] using ih m h
    | keep k2 val =>
      cases hl : lookupKey k2 m with
      | some w => simpa [drainEntries, hact, hl] using ih m h
      | none =>
        have hnotin := lookupKey_eq_none.mp hl
        have : ((m ++ [(k2, val)]).map Prod.fst).Nodup := by
          simp [List.nodup_append, h, hnotin]
        simpa [drainEntries, hact, hl] using ih (m ++ [(k2, val)]) this

theorem drainEntries_mem (act : α → EntryAction β) {k : String} {v : β} :
    ∀ (es : List α) (m : List (String × β)),
      (k, v) ∈ (drainEntries act m es).1 →
      (k, v) ∈ m ∨ ∃ a ∈ es, act a = .keep k v := by
  intro es
  induction es with
  | nil => intro m h; simp [drainEntries] at h; exact Or.inl h
  | cons a rest ih =>
    intro m h
    cases hact : act a with
    | bad =>
      simp [drainEntries, hact] at h
      exact Or.inl h
    | skip =>
      rw [show (drainEntries act m (a :: rest)) = drainEntries act m rest by
            simp [drainEntries, hact]] at h
      rcases ih m h with hm | ⟨b, hb, hkeep⟩
      · exact Or.inl hm
      · exact Or.inr ⟨b, List.mem_cons_of_mem a hb, hkeep⟩
    | keep k2 val =>
      cases hl : lookupKey k2 m with
      | some w =>
        rw [show (drainEntries act m (a :: rest)) = drainEntries act m rest by
              simp [drainEntries, hact, hl]] at h
        rcases ih m h with hm | ⟨b, hb, hkeep⟩
        · exact Or.inl hm
        · exact Or.inr ⟨b, List.mem_cons_of_mem a hb, hkeep⟩
      | none =>
        rw [show (drainEntries act m (a :: rest)) =
              drainEntries act (m ++ [(k2, val)]) rest by
            simp [drainEntries, hact, hl]] at h
        rcases ih (m ++ [(k2, val)]) h with hm | ⟨b, hb, hkeep⟩
        · rcases List.mem_append.mp hm with hm2 | hm2
          · exact Or.inl hm2
          · simp at hm2
            obtain ⟨hk, hv⟩ := hm2
            subst hk; subst hv
            exact Or.inr ⟨a, List.mem_cons_self a rest, hact⟩
        · exact Or.inr ⟨b, List.mem_cons_of_mem a hb, hkeep⟩

theorem drainEntries_append (act : α → EntryAction β) :
    ∀ (es1 es2 : List α) (m : List (String × β)),
      (drainEntries act m es1).2 = none →
      drainEntries act m (es1 ++ es2) =
        drainEntries act (drainEntries act m es1).1 es2 := by
  intro es1
  induction es1 with
  | nil => intro es2 m _; simp [drainEntries]
  | cons a rest ih =>
    intro es2 m herr
    cases hact : act a with
    | bad => simp [drainEntries, hact] at herr
    | skip =>
      rw [show (drainEntries act m (a :: rest)) = drainEntries act m rest by
            simp [drainEntries, hact]] at herr ⊢
      simpa [drainEntries, hact] using ih es2 m herr
    | keep k2 val =>
      cases hl : lookupKey k2 m with
      | some w =>
        rw [show (drainEntries act m (a :: rest)) = drainEntries act m rest by
              simp [drainEntries, hact, hl]] at herr ⊢
        simpa [drainEntries, hact, hl] using ih es2 m herr
      | none =>
        rw [show (drainEntries act m (a :: rest)) =
              drainEntries act (m ++ [(k2, val)]) rest by
            simp [drainEntries, hact, hl]] at herr ⊢
        simpa [drainEntries, hact, hl] using ih es2 (m ++ [(k2, val)]) herr

theorem drainPages_lookup_mono {act : Option α → EntryAction β} {k : String}
    {v : β} :
    ∀ (pages : List (PageResult α)) (m : List (String × β)),
      lookupKey k m = some v →
      lookupKey k (drainPages act m pages).1 = some v := by
  intro pages
  induction pages with
  | nil => intro m h; simpa [drainPages] using h
  | cons p rest ih =>
    intro m h
    cases p with
    | error e => simpa [drainPages] using h
    | ok es =>
      rcases hde : drainEntries act m es with ⟨m2, err⟩
      have hm2 : lookupKey k m2 = some v := by
        have := drainEntries_lookup_mono act es m h
        rw [hde] at this
        exact this
      cases err with
      | none => simpa [drainPages, hde] using ih m2 hm2
      | some e => simpa [drainPages, hde] using hm2

theorem drainPages_lookup_of_none {act : Option α → EntryAction β}
    {k : String} :
    ∀ (pages : List (PageResult α)) (m : List (String × β)),
      lookupKey k m = none → (drainPages act m pages).2 = none →
      lookupKey k (drainPages act m pages).1 =
        lookupKey k (keptPairs act pages) := by
  intro pages
  induction pages with
  | nil => intro m h _; simpa [drainPages, keptPairs] using h
  | cons p rest ih =>
    intro m h herr
    cases p with
    | error e => simp [drainPages] at herr
    | ok es =>
      rcases hde : drainEntries act m es with ⟨m2, err⟩
      cases err with
      | some e => simp [drainPages, hde] at herr
      | none =>
        rw [show (drainPages act m (Except.ok es :: rest)) =
              drainPages act m2 rest by simp [drainPages, hde]] at herr ⊢
        have hent := drainEntries_lookup_of_none act es m h (by rw [hde])
        rw [hde] at hent
        cases hfl : lookupKey k (es.filterMap (keptOf act)) with
        | some w =>
          rw [hfl] at hent
          simpa [keptPairs, lookupKey_append_of_some hfl] using
            drainPages_lookup_mono rest m2 hent
        | none =>
          rw [hfl] at hent
          rw [keptPairs, lookupKey_append_of_none hfl]
          exact ih m2 hent herr

theorem drainPages_nodupKeys {act : Option α → EntryAction β} :
    ∀ (pages : List (PageResult α)) (m : List (String × β)),
      (m.map Prod.fst).Nodup →
      (((drainPages act m pages).1).map Prod.fst).Nodup := by
  intro pages
  induction pages with
  | nil => intro m h; simpa [drainPages] using h
  | cons p rest ih =>
    intro m h
    cases p with
    | error e => simpa [drainPages] using h
    | ok es =>
      rcases hde : drainEntries act m es with ⟨m2, err⟩
      have hm2 : (m2.map Prod.fst).Nodup := by
        have := drainEntries_nodupKeys act es m h
        rw [hde] at this
        exact this
      cases err with
      | none => simpa [drainPages, hde] using ih m2 hm2
      | some e => simpa [drainPages, hde] using hm2

theorem drainPages_mem {act : Option α → EntryAction β} {k : String}
    {v : β} :
    ∀ (pages : List (PageResult α)) (m : List (String × β)),
      (k, v) ∈ (drainPages act m pages).1 →
      (k, v) ∈ m ∨
        ∃ es, Except.ok es ∈ pages ∧ ∃ a ∈ es, act a = .keep k v := by
  intro pages
  induction pages with
  | nil => intro m h; simp [drainPages] at h; exact Or.inl h
  | cons p rest ih =>
    intro m h
    cases p with
    | error e =>
      simp [drainPages] at h
      exact Or.inl h
    | ok es =>
      rcases hde : drainEntries act m es with ⟨m2, err⟩
      have hstep : (k, v) ∈ m2 → (k, v) ∈ m ∨
          ∃ es2, Except.ok es2 ∈ (Except.ok es :: rest : List (PageResult α)) ∧
            ∃ a ∈ es2, act a = .keep k v := by
        intro hm2
        have := drainEntries_mem act es m (by rw [hde]; exact hm2)
        rcases this with hm | ⟨a, ha, hkeep⟩
        · exact Or.inl hm
        · exact Or.inr ⟨es, List.mem_cons_self _ _, a, ha, hkeep⟩
      cases err with
      | some e =>
        rw [show (drainPages act m (Except.ok es :: rest)) = (m2, some e) by
              simp [drainPages, hde]] at h
        exact hstep h
      | none =>
        rw [show (drainPages act m (Except.ok es :: rest)) =
              drainPages act m2 rest by simp [drainPages, hde]] at h
        rcases ih m2 h with hm2 | ⟨es2, hes2, a, ha, hkeep⟩
        · exact hstep hm2
        · exact Or.inr ⟨es2, List.mem_cons_of_mem _ hes2, a, ha, hkeep⟩

theorem drainPages_append {act : Option α → EntryAction β} :
    ∀ (ps1 ps2 : List (PageResult α)) (m : List (String × β)),
      (drainPages act m ps1).2 = none →
      drainPages act m (ps1 ++ ps2) =
        drainPages act (drainPages act m ps1).1 ps2 := by
  intro ps1
  induction ps1 with
  | nil => intro ps2 m _; simp [drainPages]
  | cons p rest ih =>
    intro ps2 m herr
    cases p with
    | error e => simp [drainPages] at herr
    | ok es =>
      rcases hde : drainEntries act m es with ⟨m2, err⟩
      cases err with
      | some e => simp [drainPages, hde] at herr
      | none =>
        rw [show (drainPages act m (Except.ok es :: rest)) =
              drainPages act m2 rest by simp [drainPages, hde]] at herr ⊢
        simpa [drainPages, hde] using ih ps2 m2 herr

/-! Concrete sample data used by witness theorems. -/

/-- A well-formed enabled subscription entry. -/
def demoSub : Subscription :=
  { displayName := some "Prod", subscriptionID := some "sub-1"
    state := some "Enabled" }

/-- A second entry with the same display name but another id. -/
def demoSubDup : Subscription :=
  { displayName := some "Prod", subscriptionID := some "sub-2"
    state := some "Enabled" }

/-- A disabled entry. -/
def demoSubDisabled : Subscription :=
  { displayName := some "Old", subscriptionID := some "sub-3"
    state := some "Disabled" }

/-- A disabled entry missing its subscription id. -/
def demoSubBroken : Subscription :=
  { displayName := some "Broken", subscriptionID := none
    state := some "Disabled" }

/-- A well-formed eligibility schedule for role `Contributor`. -/
def demoSched : RoleEligibilitySchedule :=
  { id := some "sched-1"
    properties := some
      { expandedProperties := some
          { roleDefinition := some { displayName := some "Contributor" } }
        roleDefinitionID := some "rd-1" } }

/-- A schedule for role `Reader` that lacks its `RoleDefinitionID`. -/
def demoSchedNoRd : RoleEligibilitySchedule :=
  { id := some "sched-2"
    properties := some
      { expandedProperties := some
          { roleDefinition := some { displayName := some "Reader" } }
        roleDefinitionID := none } }

/-- An environment where every call succeeds. -/
def demoEnv : Env :=
  { subscriptionPages := [.ok [some demoSub]]
    schedulePages := fun _ => [.ok [some demoSched, some demoSchedNoRd]]
    now := 1700000000
    newUUID := .ok "00000000-0000-0000-0000-000000000001"
    createResult := fun _ _ _ => .ok () }

/-- The demo session. -/
def demoSession : Session := { principalID := "user-1" }

example : Subscriptions demoEnv = ([("Prod", "sub-1")], none) := by decide
example :
    (RolesForSubscription demoEnv "Prod").1 = (["Contributor", "Reader"], none) := by
  decide
example :
    RolesForSubscription demoEnv "Nope" =
      (([], some .subscriptionNotFound), [.listSubscriptions]) := by decide
example : (ActiveRoleAssignment demoSession demoEnv "Prod" "Contributor" "j" 5400000000000).1 = none := by decide
example : (ActiveRoleAssignment demoSession demoEnv "Prod" "Ghost" "j" 0).1 = some .roleNotFound := by decide
example : (ActiveRoleAssignment demoSession demoEnv "Prod" "Reader" "j" 0).1 = some .dataIntegrity := by decide
example : goDurationMinutes 5400000000000 = 90 := by decide
example : goDurationMinutes 90000000000 = 1 := by decide
example : goDurationMinutes (-90000000000) = -1 := by decide
example : expirationDurationString (-60000000000) = "PT-1M" := by decide
example :
    Subscriptions { demoEnv with
      subscriptionPages := [.ok [some demoSub], .ok [some demoSubDup]] } =
    ([("Prod", "sub-1")], none) := by decide
example :
    Subscriptions { demoEnv with
      subscriptionPages := [.ok [some demoSub, some demoSubBroken]] } =
    ([("Prod", "sub-1")], some .dataIntegrity) := by decide

/-- An environment whose subscription listing carries a duplicate display
name split across two pages. -/
def dupEnv : Env :=
  { demoEnv with subscriptionPages := [.ok [some demoSub], .ok [some demoSubDup]] }

/-- An environment whose subscription listing contains a malformed entry
after a well-formed one. -/
def brokenEnv : Env :=
  { demoEnv with subscriptionPages := [.ok [some demoSub, some demoSubBroken]] }

theorem subEntryAction_bad_of_missing {v : Option Subscription}
    (h : v = none ∨ ∃ sub, v = some sub ∧ (sub.displayName = none ∨
      sub.subscriptionID = none ∨ sub.state = none)) :
    subEntryAction v = .bad := by
  rcases h with rfl | ⟨sub, rfl, hf⟩
  · rfl
  · rcases sub with ⟨dn, sid, st⟩
    rcases hf with h | h | h
    · subst h; cases sid <;> cases st <;> rfl
    · subst h; cases dn <;> cases st <;> rfl
    · subst h; cases dn <;> cases sid <;> rfl

/-- C1: every binding of the mapping returned by `Subscriptions` originates
in a fetched page entry whose state is `"Enabled"` and whose display name
and subscription id are the binding's key and value; entries in any other
state never contribute a binding. -/
theorem C1_subscriptions_only_enabled (env : Env) (k sid : String)
    (h : (k, sid) ∈ (Subscriptions env).1) :
    ∃ es sub, Except.ok es ∈ env.subscriptionPages ∧ some sub ∈ es ∧
      sub.displayName = some k ∧ sub.subscriptionID = some sid ∧
      sub.state = some subscriptionStateEnabled := by
  rw [Subscriptions] at h
  rcases drainPages_mem env.subscriptionPages [] h with hm | ⟨es, hes, a, ha, hkeep⟩
  · simp at hm
  · refine ⟨es, ?_⟩
    cases a with
    | none => simp [subEntryAction] at hkeep
    | some sub =>
      rcases sub with ⟨dn, sid2, st⟩
      cases dn with
      | none => simp [subEntryAction] at hkeep
      | some dn =>
        cases sid2 with
        | none => simp [subEntryAction] at hkeep
        | some sid2 =>
          cases st with
          | none => simp [subEntryAction] at hkeep
          | some st =>
            by_cases hst : st = subscriptionStateEnabled
            · subst hst
              simp [subEntryAction] at hkeep
              obtain ⟨hdn, hsid⟩ := hkeep
              subst hdn; subst hsid
              exact ⟨_, hes, ha, rfl, rfl, rfl⟩
            · simp [subEntryAction, hst] at hkeep

/-- C1 witness at a concrete single-page listing. -/
theorem C1_witness :
    ∃ es sub, Except.ok es ∈ demoEnv.subscriptionPages ∧ some sub ∈ es ∧
      sub.displayName = some "Prod" ∧ sub.subscriptionID = some "sub-1" ∧
      sub.state = some subscriptionStateEnabled :=
  C1_subscriptions_only_enabled demoEnv "Prod" "sub-1" (by decide)

/-- C2: for both paged listings the aggregated mapping has pairwise
distinct display-name keys, and (when the drain finishes without error)
looking a name up in it returns exactly what first-match lookup returns on
the flat page-order sequence of kept pairs: the first occurrence wins and
later duplicates never overwrite it. -/
theorem C2_first_occurrence_wins (env : Env) (scope : String) :
    (((Subscriptions env).1).map Prod.fst).Nodup ∧
    (((roleEligibilitySchedules env scope).1).map Prod.fst).Nodup ∧
    ((Subscriptions env).2 = none → ∀ k,
      lookupKey k (Subscriptions env).1 =
        lookupKey k (keptPairs subEntryAction env.subscriptionPages)) ∧
    ((roleEligibilitySchedules env scope).2 = none → ∀ k,
      lookupKey k (roleEligibilitySchedules env scope).1 =
        lookupKey k (keptPairs schedEntryAction (env.schedulePages scope))) := by
  refine ⟨?_, ?_, ?_, ?_⟩
  · exact drainPages_nodupKeys env.subscriptionPages [] (by simp)
  · exact drainPages_nodupKeys (env.schedulePages scope) [] (by simp)
  · intro herr k
    exact drainPages_lookup_of_none env.subscriptionPages [] rfl herr
  · intro herr k
    exact drainPages_lookup_of_none (env.schedulePages scope) [] rfl herr

/-- C2 witness: with the duplicate name `Prod` split across two pages, both
the aggregated map and the flat first-occurrence sequence answer `sub-1`. -/
theorem C2_witness :
    lookupKey "Prod" (Subscriptions dupEnv).1 =
      lookupKey "Prod" (keptPairs subEntryAction dupEnv.subscriptionPages) ∧
    lookupKey "Contributor" (roleEligibilitySchedules dupEnv "sc").1 =
      lookupKey "Contributor"
        (keptPairs schedEntryAction (dupEnv.schedulePages "sc")) :=
  ⟨(C2_first_occurrence_wins dupEnv "sc").2.2.1 (by decide) "Prod",
    (C2_first_occurrence_wins dupEnv "sc").2.2.2 (by decide) "Contributor"⟩

/-- C4: an unresolvable subscription name makes `ActiveRoleAssignment`
fail with SubscriptionNotFound after only the subscriptions call, before
any role lookup; a resolvable subscription whose schedules lack the role
name fails with RoleNotFound after the subscriptions and schedules calls;
in both cases the trace contains no create call. -/
theorem C4_subscription_then_role (env : Env) (s : Session)
    (sn rn j : String) (d : Int) :
    ((Subscriptions env).2 = none →
      lookupKey sn (Subscriptions env).1 = none →
      ActiveRoleAssignment s env sn rn j d =
        (some .subscriptionNotFound, [.listSubscriptions])) ∧
    (∀ sid, (Subscriptions env).2 = none →
      lookupKey sn (Subscriptions env).1 = some sid →
      (roleEligibilitySchedules env ("subscriptions/" ++ sid)).2 = none →
      lookupKey rn (roleEligibilitySchedules env ("subscriptions/" ++ sid)).1 = none →
      ActiveRoleAssignment s env sn rn j d =
        (some .roleNotFound,
          [.listSubscriptions, .listSchedules ("subscriptions/" ++ sid)])) := by
  constructor
  · intro h1 h2
    rcases hS : Subscriptions env with ⟨subs, serr⟩
    have h1x : serr = none := by rw [hS] at h1; exact h1
    subst h1x
    have h2x : lookupKey sn subs = none := by rw [hS] at h2; exact h2
    simp [ActiveRoleAssignment, hS, h2x]
  · intro sid h1 h2 h3 h4
    rcases hS : Subscriptions env with ⟨subs, serr⟩
    have h1x : serr = none := by rw [hS] at h1; exact h1
    subst h1x
    have h2x : lookupKey sn subs = some sid := by rw [hS] at h2; exact h2
    rcases hR : roleEligibilitySchedules env ("subscriptions/" ++ sid) with ⟨res, rerr⟩
    have h3x : rerr = none := by rw [hR] at h3; exact h3
    subst h3x
    have h4x : lookupKey rn res = none := by rw [hR] at h4; exact h4
    simp [ActiveRoleAssignment, hS, h2x, hR, h4x]

/-- C4 witness: the role `Ghost` has no eligibility schedule at the demo
subscription, so activation fails with RoleNotFound and no create call. -/
theorem C4_witness :
    ActiveRoleAssignment demoSession demoEnv "Prod" "Ghost" "j" 0 =
      (some .roleNotFound,
        [.listSubscriptions, .listSchedules ("subscriptions/" ++ "sub-1")]) :=
  (C4_subscription_then_role demoEnv demoSession "Prod" "Ghost" "j" 0).2
    "sub-1" (by decide) (by decide) (by decide) (by decide)

/-- C5: when the subscription listing reaches an entry with a nil record,
display name, subscription id or state after error-free progress, it stops
at that entry with the integrity error and hands back the map built so
far; a failing page fetch likewise hands back the partial map with the
page error. -/
theorem C5_integrity_stops_with_partial_map (env : Env)
    (prefixPages restPages : List (PageResult Subscription))
    (vs rest : List (Option Subscription)) (v : Option Subscription)
    (m m2 : List (String × String)) (msg : String) :
    (env.subscriptionPages =
        prefixPages ++ Except.ok (vs ++ v :: rest) :: restPages →
      drainPages subEntryAction [] prefixPages = (m, none) →
      drainEntries subEntryAction m vs = (m2, none) →
      (v = none ∨ ∃ sub, v = some sub ∧ (sub.displayName = none ∨
        sub.subscriptionID = none ∨ sub.state = none)) →
      Subscriptions env = (m2, some .dataIntegrity)) ∧
    (env.subscriptionPages = prefixPages ++ Except.error msg :: restPages →
      drainPages subEntryAction [] prefixPages = (m, none) →
      Subscriptions env = (m, some (.pageError msg))) := by
  constructor
  · intro hp hpre hvs hbad
    have hb := subEntryAction_bad_of_missing hbad
    have step1 : Subscriptions env =
        drainPages subEntryAction (drainPages subEntryAction [] prefixPages).1
          (Except.ok (vs ++ v :: rest) :: restPages) := by
      rw [show Subscriptions env =
            drainPages subEntryAction [] env.subscriptionPages from rfl, hp]
      exact drainPages_append prefixPages _ [] (by rw [hpre])
    rw [step1, hpre]
    have he : drainEntries subEntryAction m (vs ++ v :: rest) =
        (m2, some .dataIntegrity) := by
      rw [drainEntries_append subEntryAction vs (v :: rest) m (by rw [hvs]), hvs]
      simp [drainEntries, hb]
    simp [drainPages, he]
  · intro hp hpre
    have step1 : Subscriptions env =
        drainPages subEntryAction (drainPages subEntryAction [] prefixPages).1
          (Except.error msg :: restPages) := by
      rw [show Subscriptions env =
            drainPages subEntryAction [] env.subscriptionPages from rfl, hp]
      exact drainPages_append prefixPages _ [] (by rw [hpre])
    rw [step1, hpre]
    simp [drainPages]

/-- C5 witness: a well-formed entry followed by one missing its id yields
the one-entry partial map together with the integrity error. -/
theorem C5_witness :
    Subscriptions brokenEnv = ([("Prod", "sub-1")], some .dataIntegrity) :=
  (C5_integrity_stops_with_partial_map brokenEnv [] [] [some demoSub] []
      (some demoSubBroken) [] [("Prod", "sub-1")] "x").1
    rfl rfl (by decide) (Or.inr ⟨demoSubBroken, rfl, Or.inr (Or.inl rfl)⟩)

/-- C6: a subscription name absent from the `Subscriptions` map makes
`RolesForSubscription` fail with SubscriptionNotFound with only the
subscriptions call in its trace; a resolvable name returns exactly the
keys of the schedules mapping at that subscription's scope, unsorted. -/
theorem C6_roles_resolution (env : Env) (name : String) :
    ((Subscriptions env).2 = none →
      lookupKey name (Subscriptions env).1 = none →
      RolesForSubscription env name =
        (([], some .subscriptionNotFound), [.listSubscriptions])) ∧
    (∀ sid, (Subscriptions env).2 = none →
      lookupKey name (Subscriptions env).1 = some sid →
      (roleEligibilitySchedules env ("/subscriptions/" ++ sid)).2 = none →
      RolesForSubscription env name =
        ((((roleEligibilitySchedules env ("/subscriptions/" ++ sid)).1).map
            Prod.fst, none),
          [.listSubscriptions, .listSchedules ("/subscriptions/" ++ sid)])) := by
  constructor
  · intro h1 h2
    rcases hS : Subscriptions env with ⟨subs, serr⟩
    have h1x : serr = none := by rw [hS] at h1; exact h1
    subst h1x
    have h2x : lookupKey name subs = none := by rw [hS] at h2; exact h2
    simp [RolesForSubscription, hS, h2x]
  · intro sid h1 h2 h3
    rcases hS : Subscriptions env with ⟨subs, serr⟩
    have h1x : serr = none := by rw [hS] at h1; exact h1
    subst h1x
    have h2x : lookupKey name subs = some sid := by rw [hS] at h2; exact h2
    rcases hR : roleEligibilitySchedules env ("/subscriptions/" ++ sid) with ⟨res, rerr⟩
    have h3x : rerr = none := by rw [hR] at h3; exact h3
    subst h3x
    simp [RolesForSubscription, hS, h2x, hR]

/-- C6 witness: an unknown name short-circuits; a known one lists the two
demo role names without touching their order. -/
theorem C6_witness :
    RolesForSubscription demoEnv "Nope" =
      (([], some .subscriptionNotFound), [.listSubscriptions]) ∧
    RolesForSubscription demoEnv "Prod" =
      ((((roleEligibilitySchedules demoEnv ("/subscriptions/" ++ "sub-1")).1).map
          Prod.fst, none),
        [.listSubscriptions, .listSchedules ("/subscriptions/" ++ "sub-1")]) :=
  ⟨(C6_roles_resolution demoEnv "Nope").1 (by decide) (by decide),
    (C6_roles_resolution demoEnv "Prod").2 "sub-1" (by decide) (by decide)
      (by decide)⟩

/-- C7: whenever `ActiveRoleAssignment` issues a create call, its
correlation id is exactly the generated UUID, its scope is the resolved
subscription's scope, and its body is the built activation request:
request type self-activate, the session's principal id, the resolved
schedule's role-definition id and linked schedule id, the caller's
justification verbatim, start time equal to the call-time clock and an
after-duration expiration carrying the serialized duration string. -/
theorem C7_create_call_request (s : Session) (env : Env)
    (sn rn j : String) (d : Int) (scope guid : String)
    (req : RoleAssignmentScheduleRequest)
    (h : ApiCall.create scope guid req ∈ (ActiveRoleAssignment s env sn rn j d).2) :
    env.newUUID = Except.ok guid ∧
    ∃ sid re, lookupKey sn (Subscriptions env).1 = some sid ∧
      lookupKey rn (roleEligibilitySchedules env ("subscriptions/" ++ sid)).1 =
        some re ∧
      scheduleFieldsMissing re = false ∧
      scope = "/subscriptions/" ++ sid ∧
      req = buildActivationRequest s.principalID j env.now d re ∧
      req.properties = some
        { principalID := some s.principalID
          requestType := some requestTypeSelfActivate
          roleDefinitionID := re.properties.bind fun p => p.roleDefinitionID
          justification := some j
          scheduleInfo := some
            { startDateTime := some env.now
              expiration := some
                { type := some typeAfterDuration
                  duration := some (expirationDurationString d) } }
          linkedRoleEligibilityScheduleID := re.id } := by
  rcases hS : Subscriptions env with ⟨subs, serr⟩
  cases serr with
  | some e => simp [ActiveRoleAssignment, hS] at h
  | none =>
    cases hsub : lookupKey sn subs with
    | none => simp [ActiveRoleAssignment, hS, hsub] at h
    | some sid =>
      rcases hR : roleEligibilitySchedules env ("subscriptions/" ++ sid) with ⟨res, rerr⟩
      cases rerr with
      | some e => simp [ActiveRoleAssignment, hS, hsub, hR] at h
      | none =>
        cases hrole : lookupKey rn res with
        | none => simp [ActiveRoleAssignment, hS, hsub, hR, hrole] at h
        | some re =>
          cases hmiss : scheduleFieldsMissing re with
          | true => simp [ActiveRoleAssignment, hS, hsub, hR, hrole, hmiss] at h
          | false =>
            cases hu : env.newUUID with
            | error e =>
              simp [ActiveRoleAssignment, hS, hsub, hR, hrole, hmiss, hu] at h
            | ok guid2 =>
              have hmem : scope = "/subscriptions/" ++ sid ∧ guid = guid2 ∧
                  req = buildActivationRequest s.principalID j env.now d re := by
                cases hc : env.createResult ("/subscriptions/" ++ sid) guid2
                    (buildActivationRequest s.principalID j env.now d re) with
                | error e =>
                  simp [ActiveRoleAssignment, hS, hsub, hR, hrole, hmiss, hu, hc] at h
                  exact h
                | ok u =>
                  simp [ActiveRoleAssignment, hS, hsub, hR, hrole, hmiss, hu, hc] at h
                  exact h
              obtain ⟨hscope, hguid, hreq⟩ := hmem
              subst hguid
              exact ⟨rfl, sid, re, rfl, by rw [hR]; exact hrole, hmiss, hscope,
                hreq, by rw [hreq]; rfl⟩

/-- C7 witness: the create call of a successful demo activation carries the
generated UUID, the resolved scope and the fully built request body. -/
theorem C7_witness :
    demoEnv.newUUID = Except.ok "00000000-0000-0000-0000-000000000001" ∧
    ∃ sid re, lookupKey "Prod" (Subscriptions demoEnv).1 = some sid ∧
      lookupKey "Contributor"
          (roleEligibilitySchedules demoEnv ("subscriptions/" ++ sid)).1 =
        some re ∧
      scheduleFieldsMissing re = false ∧
      "/subscriptions/sub-1" = "/subscriptions/" ++ sid ∧
      buildActivationRequest "user-1" "on-call" 1700000000 5400000000000
          demoSched =
        buildActivationRequest demoSession.principalID "on-call" demoEnv.now
          5400000000000 re ∧
      (buildActivationRequest "user-1" "on-call" 1700000000 5400000000000
          demoSched).properties = some
        { principalID := some demoSession.principalID
          requestType := some requestTypeSelfActivate
          roleDefinitionID := re.properties.bind fun p => p.roleDefinitionID
          justification := some "on-call"
          scheduleInfo := some
            { startDateTime := some demoEnv.now
              expiration := some
                { type := some typeAfterDuration
                  duration := some (expirationDurationString 5400000000000) } }
          linkedRoleEligibilityScheduleID := re.id } :=
  C7_create_call_request demoSession demoEnv "Prod" "Contributor" "on-call"
    5400000000000 "/subscriptions/sub-1"
    "00000000-0000-0000-0000-000000000001"
    (buildActivationRequest "user-1" "on-call" 1700000000 5400000000000
      demoSched) (by decide)

/-- C8: for a resolved subscription id, `RolesForSubscription` queries the
schedules at scope `"/subscriptions/" ++ id` while `ActiveRoleAssignment`
queries them at `"subscriptions/" ++ id`, and those two scope strings are
never equal: the two call sites use different scope formats. -/
theorem C8_scope_formats_differ (env : Env) (name sid : String) :
    ((Subscriptions env).2 = none →
      lookupKey name (Subscriptions env).1 = some sid →
      ApiCall.listSchedules ("/subscriptions/" ++ sid) ∈
        (RolesForSubscription env name).2) ∧
    (∀ s j d, (Subscriptions env).2 = none →
      lookupKey name (Subscriptions env).1 = some sid →
      ApiCall.listSchedules ("subscriptions/" ++ sid) ∈
        (ActiveRoleAssignment s env name "r" j d).2) ∧
    (∀ id : String, "/subscriptions/" ++ id ≠ "subscriptions/" ++ id) := by
  refine ⟨?_, ?_, ?_⟩
  · intro h1 h2
    rcases hS : Subscriptions env with ⟨subs, serr⟩
    have h1x : serr = none := by rw [hS] at h1; exact h1
    subst h1x
    have h2x : lookupKey name subs = some sid := by rw [hS] at h2; exact h2
    rcases hR : roleEligibilitySchedules env ("/subscriptions/" ++ sid) with ⟨res, rerr⟩
    cases rerr with
    | some e => simp [RolesForSubscription, hS, h2x, hR]
    | none => simp [RolesForSubscription, hS, h2x, hR]
  · intro s j d h1 h2
    rcases hS : Subscriptions env with ⟨subs, serr⟩
    have h1x : serr = none := by rw [hS] at h1; exact h1
    subst h1x
    have h2x : lookupKey name subs = some sid := by rw [hS] at h2; exact h2
    rcases hR : roleEligibilitySchedules env ("subscriptions/" ++ sid) with ⟨res, rerr⟩
    cases rerr with
    | some e => simp [ActiveRoleAssignment, hS, h2x, hR]
    | none =>
      cases hrole : lookupKey "r" res with
      | none => simp [ActiveRoleAssignment, hS, h2x, hR, hrole]
      | some re =>
        cases hmiss : scheduleFieldsMissing re with
        | true => simp [ActiveRoleAssignment, hS, h2x, hR, hrole, hmiss]
        | false =>
          cases hu : env.newUUID with
          | error e => simp [ActiveRoleAssignment, hS, h2x, hR, hrole, hmiss, hu]
          | ok g =>
            cases hc : env.createResult ("/subscriptions/" ++ sid) g
                (buildActivationRequest s.principalID j env.now d re) with
            | error e =>
              simp [ActiveRoleAssignment, hS, h2x, hR, hrole, hmiss, hu, hc]
            | ok u =>
              simp [ActiveRoleAssignment, hS, h2x, hR, hrole, hmiss, hu, hc]
  · intro id h
    have h2 : ("/subscriptions/" ++ id).length =
        ("subscriptions/" ++ id).length := by rw [h]
    rw [String.length_append, String.length_append] at h2
    have e1 : ("/subscriptions/" : String).length = 15 := rfl
    have e2 : ("subscriptions/" : String).length = 14 := rfl
    rw [e1, e2] at h2
    omega

/-- C8 witness: both traces at the demo data, and the two concrete scope
strings for `sub-1` differ. -/
theorem C8_witness :
    ApiCall.listSchedules ("/subscriptions/" ++ "sub-1") ∈
      (RolesForSubscription demoEnv "Prod").2 ∧
    ApiCall.listSchedules ("subscriptions/" ++ "sub-1") ∈
      (ActiveRoleAssignment demoSession demoEnv "Prod" "r" "j" 0).2 ∧
    "/subscriptions/" ++ "sub-1" ≠ "subscriptions/" ++ "sub-1" :=
  ⟨(C8_scope_formats_differ demoEnv "Prod" "sub-1").1 (by decide) (by decide),
    (C8_scope_formats_differ demoEnv "Prod" "sub-1").2.1 demoSession "j" 0
      (by decide) (by decide),
    (C8_scope_formats_differ demoEnv "Prod" "sub-1").2.2 "sub-1"⟩

theorem scheduleFieldsMissing_of_absent {re : RoleEligibilitySchedule}
    (h : re.id = none ∨ re.properties = none ∨
      ∃ p, re.properties = some p ∧ (p.expandedProperties = none ∨
        (∃ ep, p.expandedProperties = some ep ∧ ep.roleDefinition = none) ∨
        p.roleDefinitionID = none)) :
    scheduleFieldsMissing re = true := by
  rcases re with ⟨i, props⟩
  rcases h with h | h | ⟨p, hp, hf⟩
  · have h2 : i = none := h
    subst h2
    rfl
  · have h2 : props = none := h
    subst h2
    cases i <;> rfl
  · have hp2 : props = some p := hp
    subst hp2
    rcases p with ⟨ep, rd⟩
    rcases hf with h | ⟨ep2, hep, hrd⟩ | h
    · have h2 : ep = none := h
      subst h2
      cases i <;> rfl
    · have hep2 : ep = some ep2 := hep
      subst hep2
      rcases ep2 with ⟨rdef⟩
      have hrd2 : rdef = none := hrd
      subst hrd2
      cases i <;> rfl
    · have h2 : rd = none := h
      subst h2
      cases i with
      | none => rfl
      | some i2 =>
        cases ep with
        | none => rfl
        | some ep3 =>
          rcases ep3 with ⟨rdef⟩
          cases rdef <;> rfl

/-- C9: when the role name resolves but the schedule record lacks its id,
its properties, the expanded-properties path or its role-definition id,
`ActiveRoleAssignment` fails with the integrity error right after the two
read calls and issues no create call. -/
theorem C9_schedule_integrity_guard (env : Env) (s : Session)
    (sn rn j : String) (d : Int) (sid : String)
    (re : RoleEligibilitySchedule)
    (h1 : (Subscriptions env).2 = none)
    (h2 : lookupKey sn (Subscriptions env).1 = some sid)
    (h3 : (roleEligibilitySchedules env ("subscriptions/" ++ sid)).2 = none)
    (h4 : lookupKey rn (roleEligibilitySchedules env ("subscriptions/" ++ sid)).1 =
      some re)
    (h5 : re.id = none ∨ re.properties = none ∨
      ∃ p, re.properties = some p ∧ (p.expandedProperties = none ∨
        (∃ ep, p.expandedProperties = some ep ∧ ep.roleDefinition = none) ∨
        p.roleDefinitionID = none)) :
    ActiveRoleAssignment s env sn rn j d =
      (some .dataIntegrity,
        [.listSubscriptions, .listSchedules ("subscriptions/" ++ sid)]) := by
  have hmiss := scheduleFieldsMissing_of_absent h5
  rcases hS : Subscriptions env with ⟨subs, serr⟩
  have h1x : serr = none := by rw [hS] at h1; exact h1
  subst h1x
  have h2x : lookupKey sn subs = some sid := by rw [hS] at h2; exact h2
  rcases hR : roleEligibilitySchedules env ("subscriptions/" ++ sid) with ⟨res, rerr⟩
  have h3x : rerr = none := by rw [hR] at h3; exact h3
  subst h3x
  have h4x : lookupKey rn res = some re := by rw [hR] at h4; exact h4
  simp [ActiveRoleAssignment, hS, h2x, hR, h4x, hmiss]

/-- C9 witness: the demo `Reader` schedule lacks its role-definition id, so
activation stops with the integrity error and no create call. -/
theorem C9_witness :
    ActiveRoleAssignment demoSession demoEnv "Prod" "Reader" "j" 0 =
      (some .dataIntegrity,
        [.listSubscriptions, .listSchedules ("subscriptions/" ++ "sub-1")]) :=
  C9_schedule_integrity_guard demoEnv demoSession "Prod" "Reader" "j" 0
    "sub-1" demoSchedNoRd (by decide) (by decide) (by decide) (by decide)
    (Or.inr (Or.inr ⟨_, rfl, Or.inr (Or.inr rfl)⟩))

/-- C10: in `Subscriptions` the nil-field check runs before the
enabled-state filter: an entry that is not enabled (or whose state is
absent) but lacks a field still aborts the whole call with the integrity
error instead of being skipped as disabled. -/
theorem C10_nil_check_before_state_filter (env : Env)
    (vs rest : List (Option Subscription)) (v : Option Subscription)
    (m : List (String × String))
    (hpages : env.subscriptionPages = [Except.ok (vs ++ v :: rest)])
    (hpre : drainEntries subEntryAction [] vs = (m, none))
    (hmissing : v = none ∨ ∃ sub, v = some sub ∧ (sub.displayName = none ∨
      sub.subscriptionID = none ∨ sub.state = none))
    (_hnotEnabled : ∀ sub st, v = some sub → sub.state = some st →
      st ≠ subscriptionStateEnabled) :
    Subscriptions env = (m, some .dataIntegrity) := by
  have hb := subEntryAction_bad_of_missing hmissing
  have he : drainEntries subEntryAction [] (vs ++ v :: rest) =
      (m, some .dataIntegrity) := by
    rw [drainEntries_append subEntryAction vs (v :: rest) [] (by rw [hpre]), hpre]
    simp [drainEntries, hb]
  rw [show Subscriptions env =
        drainPages subEntryAction [] env.subscriptionPages from rfl, hpages]
  simp [drainPages, he]

/-- C10 witness: a disabled entry with a nil subscription id still aborts
the listing with the integrity error. -/
theorem C10_witness :
    Subscriptions brokenEnv = ([("Prod", "sub-1")], some .dataIntegrity) :=
  C10_nil_check_before_state_filter brokenEnv [some demoSub] []
    (some demoSubBroken) [("Prod", "sub-1")] rfl (by decide)
    (Or.inr ⟨demoSubBroken, rfl, Or.inr (Or.inl rfl)⟩)
    (by
      intro sub st hv hst
      injection hv with hv
      subst hv
      have hst2 : st = "Disabled" := by
        have : demoSubBroken.state = some "Disabled" := rfl
        rw [this] at hst
        injection hst with hst
        exact hst.symm
      subst hst2
      decide)

end Gazcli
